import Mathlib

/-!
Verification of the streaming chat session protocol of gen-learning-hub.

The client side (`ChatService.streamChatMessage`, `isUserMessageEcho`,
`isJsonContent`) is embedded from the JavaScript source.  The backend
(session store, modification classifier, session orchestrator) is not part
of the repository files; those components are modelled from the
specification (spec.md sections 3-4.5 and the code sketch in
STREAMING_IMPROVEMENTS.md) and each such definition says so in its
doc comment.
-/

namespace GraceChat

/-! ## Character-level string operations

JavaScript string operations (`toLowerCase`, `trim`, `includes`,
`startsWith`, `endsWith`) are modelled on `List Char`.  `Char.toLower`
agrees with JavaScript `toLowerCase` on ASCII, which covers every keyword
and delimiter the code compares against. -/

/-- Case-fold a character list, modelling JavaScript `toLowerCase` /
Python `str.lower` on ASCII text. -/
def caseFold (s : List Char) : List Char := s.map Char.toLower

/-- Does `hay` start with `needle`?  Models JavaScript `String.startsWith`
restricted to the list-of-chars view. -/
def startsWithL : List Char → List Char → Bool
  | _, [] => true
  | [], _ :: _ => false
  | a :: as, b :: bs => a == b && startsWithL as bs

/-- Does `hay` contain `needle` as a contiguous substring?  Models
JavaScript `String.includes` and Python `in` on strings. -/
def containsL (hay needle : List Char) : Bool :=
  match hay with
  | [] => needle.isEmpty
  | _ :: t => startsWithL hay needle || containsL t needle

/-- The whitespace characters stripped by JavaScript `String.trim`
(ASCII portion; the claims never involve non-ASCII whitespace). -/
def jsWhitespace (c : Char) : Bool :=
  c == ' ' || c == '\t' || c == '\n' || c == '\r' || c == '\x0b' || c == '\x0c'

/-- Strip leading and trailing whitespace, modelling JavaScript
`String.trim`. -/
def trimL (s : List Char) : List Char :=
  ((s.dropWhile jsWhitespace).reverse.dropWhile jsWhitespace).reverse

theorem startsWithL_iff (hay needle : List Char) :
    startsWithL hay needle = true ↔ ∃ rest, hay = needle ++ rest := by
  induction needle generalizing hay with
  | nil => simp [startsWithL]
  | cons b bs ih =>
    cases hay with
    | nil => simp [startsWithL]
    | cons a as =>
      simp only [startsWithL, Bool.and_eq_true, beq_iff_eq, ih]
      constructor
      · rintro ⟨rfl, rest, rfl⟩; exact ⟨rest, rfl⟩
      · rintro ⟨rest, h⟩
        injection h with h1 h2
        exact ⟨h1, rest, h2⟩

theorem containsL_iff (hay needle : List Char) :
    containsL hay needle = true ↔ ∃ pre post, hay = pre ++ needle ++ post := by
  induction hay with
  | nil =>
    simp only [containsL, List.isEmpty_iff]
    constructor
    · rintro rfl; exact ⟨[], [], rfl⟩
    · rintro ⟨pre, post, h⟩
      rcases List.append_eq_nil.mp (List.append_eq_nil.mp h.symm).1 with ⟨_, h2⟩
      exact h2
  | cons a t ih =>
    simp only [containsL, Bool.or_eq_true, startsWithL_iff, ih]
    constructor
    · rintro (⟨rest, h⟩ | ⟨pre, post, h⟩)
      · exact ⟨[], rest, by simp [h]⟩
      · exact ⟨a :: pre, post, by simp [h]⟩
    · rintro ⟨pre, post, h⟩
      cases pre with
      | nil => exact Or.inl ⟨post, by simpa using h⟩
      | cons p ps =>
        right
        injection h with h1 h2
        exact ⟨ps, post, h2⟩

/-! ## Data model

Modelled from the spec: the backend (session store, classifier,
orchestrator) lives in `backend/main_with_agent.py`, which is not among the
repository files; only its sketch in STREAMING_IMPROVEMENTS.md and spec.md
sections 3-4.5 describe it.  The definitions below follow those texts. -/

/-- Modelled from the spec: a Course (spec section 3) is an external record
the core "treats as an opaque record it passes through unmodified"; its
fields play no role in any claim, so it is an opaque token here. -/
structure Course where
  tag : Nat
deriving DecidableEq, Repr

/-- Message role (spec section 3): user or agent. -/
inductive Role
  | user
  | agent
deriving DecidableEq, Repr

/-- Message payload, the tagged union of spec section 3: a chat utterance
or a labeled set of course results (`kind` is the discriminator). -/
inductive MsgBody
  | text (s : String)
  | courseSet (cs : List Course)
deriving DecidableEq, Repr

/-- Message kind discriminator (spec section 3). -/
inductive MsgKind
  | text
  | courseSet
deriving DecidableEq, Repr

/-- Modelled from the spec: a Message (spec section 3).  The `id` and
`timestamp` fields are omitted: no claim refers to them, and message
identity in the claims is positional (history order). -/
structure Message where
  role : Role
  body : MsgBody
deriving DecidableEq, Repr

/-- The `kind` discriminator of a message (spec section 3). -/
def Message.kind (m : Message) : MsgKind :=
  match m.body with
  | .text _ => .text
  | .courseSet _ => .courseSet

/-- Modelled from the spec: a Session (spec section 3) with its ordered
message history and `lastCourseSet`.  `createdAt`/`lastActivityAt` are
omitted: no claim refers to timestamps. -/
structure Session where
  messages : List Message
  lastCourseSet : List Course
deriving DecidableEq, Repr

/-- Reason component of a ModificationDecision (spec section 3). -/
inductive ModReason
  | noPriorCourses
  | noKeywordMatch
  | matched
deriving DecidableEq, Repr

/-- ModificationDecision (spec section 3): computed per request, not
persisted. -/
structure ModificationDecision where
  isModification : Bool
  reason : ModReason
deriving DecidableEq, Repr

/-! ## Modification Classifier -/

/-- The fixed keyword set of `_is_search_modification`
(STREAMING_IMPROVEMENTS.md lines 198-206, spec section 4.2). -/
def modificationKeywords : List String :=
  ["instead", "actually", "change", "modify", "update", "different",
   "rather", "but", "however", "more specific", "more advanced",
   "beginner", "intermediate", "advanced", "also include", "exclude"]

/-- Modelled from the spec: the Modification Classifier
`classify(session, userText)` of spec section 4.2 /
`_is_search_modification` of STREAMING_IMPROVEMENTS.md: prior courses are
required and at least one keyword must occur in the case-folded text. -/
def classify (s : Session) (userText : String) : ModificationDecision :=
  let hasPriorCourses := !s.lastCourseSet.isEmpty
  let keywordMatched :=
    modificationKeywords.any fun kw => containsL (caseFold userText.data) kw.data
  if !hasPriorCourses then ⟨false, .noPriorCourses⟩
  else if keywordMatched then ⟨true, .matched⟩
  else ⟨false, .noKeywordMatch⟩

/-! ## Agent Invoker boundary -/

/-- Failure modes of the Agent Invoker (spec section 4.3). -/
inductive AgentError
  | agentUnavailable
  | agentTimeout
  | toolFailure
deriving DecidableEq, Repr

/-- Human-readable message carried by the `stream_error` event for each
Agent Invoker failure (spec section 4.5 error path). -/
def AgentError.message : AgentError → String
  | .agentUnavailable => "agent unavailable"
  | .agentTimeout => "agent timeout"
  | .toolFailure => "tool failure"

/-- A course result set as returned by the Agent Invoker: the payload
fields of a `courses_ready` event other than `isUpdate`
(spec section 4.4 event 3). -/
structure CourseSetResult where
  courses : List Course
  totalResults : Nat
  query : String
deriving DecidableEq, Repr

/-- Successful Agent Invoker output (spec section 4.3): an ordered
sequence of agent utterances and optionally one course result set. -/
structure AgentResult where
  utterances : List String
  courseSet : Option CourseSetResult
deriving DecidableEq, Repr

/-- Outcome of one Agent Invoker call (spec section 4.3): success, or one
of the declared failure modes. -/
inductive AgentOutcome
  | success (r : AgentResult)
  | failure (e : AgentError)
deriving DecidableEq, Repr

/-- The agent text utterances a round will relay: those of a successful
outcome; a failed invocation produced none. -/
def agentUtterances : AgentOutcome → List String
  | .success r => r.utterances
  | .failure _ => []

/-! ## Stream events -/

/-- Payload of a `courses_ready` event (spec section 4.4 event 3). -/
structure CoursesReadyData where
  courses : List Course
  totalResults : Nat
  query : String
  isUpdate : Bool
deriving DecidableEq, Repr

/-- A typed stream event of one orchestrator round (spec section 4.4). -/
inductive Event
  | message_added (role : Role) (kind : MsgKind) (content : String)
  | courses_ready (d : CoursesReadyData)
  | stream_complete
  | stream_error (error : String)
deriving DecidableEq, Repr

/-- Is this event one of the two terminal events (spec section 4.4
event 4)? -/
def Event.isTerminal : Event → Bool
  | .stream_complete => true
  | .stream_error _ => true
  | _ => false

/-! ## Session Store -/

/-- Modelled from the spec: the Session Store (spec section 4.1) maps
session id to Session; an association list keyed by `Nat` ids. -/
abbrev Store := List (Nat × Session)

/-- Store lookup, `get(sessionId) -> Session | NotFound`
(spec section 4.1). -/
def storeGet (store : Store) (sid : Nat) : Option Session :=
  (store.find? fun p => p.1 == sid).map Prod.snd

/-- Replace the session stored under `sid` (helper for the mutating store
operations of spec section 4.1; ids are never added or removed by a
round). -/
def storeSet (store : Store) (sid : Nat) (sess : Session) : Store :=
  store.map fun p => if p.1 == sid then (sid, sess) else p

/-- Append a message to a session's history,
`appendMessage(sessionId, message)` of spec section 4.1 after lookup. -/
def appendMessage (sess : Session) (m : Message) : Session :=
  { sess with messages := sess.messages ++ [m] }

/-- Overwrite `lastCourseSet`, `replaceCourseSet(sessionId, courses)` of
spec section 4.1 after lookup; appends no message itself. -/
def replaceCourseSet (sess : Session) (cs : List Course) : Session :=
  { sess with lastCourseSet := cs }

/-! ## Session Orchestrator -/

/-- Modelled from the spec: one orchestrator round on a looked-up session
(spec section 4.5, `Accepting` through `Closed`).  The Agent Invoker is an
external collaborator, so its outcome is an input.  Returns the updated
session and the emitted event sequence:
user echo first, then per outcome either the error path or the agent
utterances, the optional course set, and `stream_complete`. -/
def runRound (sess : Session) (text : String) (outcome : AgentOutcome) :
    Session × List Event :=
  let userMsg : Message := ⟨.user, .text text⟩
  let sess1 := appendMessage sess userMsg
  let userEv : Event := .message_added .user .text text
  let d := classify sess1 text
  match outcome with
  | .failure e =>
      (sess1, [userEv, .stream_error (AgentError.message e)])
  | .success r =>
      let sess2 := r.utterances.foldl
        (fun s u => appendMessage s ⟨.agent, .text u⟩) sess1
      let agentEvs := r.utterances.map fun u => Event.message_added .agent .text u
      match r.courseSet with
      | none =>
          (sess2, userEv :: agentEvs ++ [.stream_complete])
      | some c =>
          let sess3 := appendMessage (replaceCourseSet sess2 c.courses)
            ⟨.agent, .courseSet c.courses⟩
          (sess3,
            userEv :: agentEvs ++
              [.courses_ready ⟨c.courses, c.totalResults, c.query, d.isModification⟩,
               .stream_complete])

/-- Request-level errors (spec section 7). -/
inductive ReqError
  | sessionNotFound
deriving DecidableEq, Repr

/-- Modelled from the spec: `StreamMessage(sessionId, text)`
(spec section 6) given the Agent Invoker outcome of the round.  An unknown
session id is a request-level error before any stream begins
(spec section 4.5); otherwise the round runs and the updated store and the
event sequence are produced. -/
def streamMessage (store : Store) (sid : Nat) (text : String)
    (outcome : AgentOutcome) : Except ReqError (Store × List Event) :=
  match storeGet store sid with
  | none => .error .sessionNotFound
  | some sess =>
      let r := runRound sess text outcome
      .ok (storeSet store sid r.1, r.2)

/-- Modelled from the spec: `GetHistory(sessionId)` (spec section 6). -/
def getHistory (store : Store) (sid : Nat) : Except ReqError (List Message) :=
  match storeGet store sid with
  | none => .error .sessionNotFound
  | some sess => .ok sess.messages

/-- Run a sequence of rounds against one session, threading the store
(spec section 5: request-per-round, each round runs to completion). -/
def runRounds (store : Store) (sid : Nat) :
    List (String × AgentOutcome) → Except ReqError Store
  | [] => .ok store
  | (t, out) :: rest =>
      match streamMessage store sid t out with
      | .error e => .error e
      | .ok r => runRounds r.1 sid rest

/-- The messages one round appends to the session history: the user
message first, then the agent text messages, then the `courseSet` message
when a course set was returned (spec section 4.5 `Invoking`). -/
def roundMessages (t : String) : AgentOutcome → List Message
  | .failure _ => [⟨.user, .text t⟩]
  | .success r =>
      ⟨.user, .text t⟩ ::
        (r.utterances.map fun u => Message.mk .agent (.text u)) ++
          (match r.courseSet with
           | none => []
           | some c => [⟨.agent, .courseSet c.courses⟩])

/-! ## Client: ChatService (frontend service, from the source)

Embeds `ChatService.streamChatMessage`, `ChatService.isUserMessageEcho`
and `ChatService.isJsonContent` of the JavaScript source.  JavaScript
values that may be non-strings appear as `JSVal`; parsed JSON values as
`JValue`.  `JSON.parse` is a platform primitive, not repository code, so
it is a parameter `parse : String → Option JValue` (`none` models a parse
exception). -/

/-- A JavaScript value in a position the code may probe with truthiness
and `typeof`: either a string, or a non-string value of which only
truthiness matters to the code. -/
inductive JSVal
  | jstr (s : String)
  | jother (truthy : Bool)
deriving DecidableEq, Repr

/-- A parsed JSON value, the possible results of `JSON.parse`. -/
inductive JValue
  | null
  | boolean (b : Bool)
  | number (n : Int)
  | str (s : String)
  | arr (elems : List JValue)
  | obj (fields : List (String × JValue))

/-- Does `k in parsed` hold?  Used by the code only at the keys
`"courses"` and `"success"`, which exist on neither `Object.prototype`
nor `Array.prototype`, so for those keys the check is an own-property
lookup on an object and false on arrays and primitives. -/
def JValue.hasProp : JValue → String → Bool
  | .obj fields, k => fields.any fun f => f.1 == k
  | _, _ => false

/-- Does `typeof parsed === 'object'` hold (true for objects, arrays and
null)? -/
def jsTypeofObject : JValue → Bool
  | .null => true
  | .arr _ => true
  | .obj _ => true
  | _ => false

/-- Embeds `ChatService.isUserMessageEcho(content, userMessage)`.  The
floating-point test `userLower.length / contentLower.length > 0.8` is
written as the exact inequality `10 * len > 8 * len`: for lengths of real
strings (far below 2^52) the double-precision quotient compares to the
literal `0.8` exactly as the rational quotient does. -/
def isUserMessageEcho (content userMessage : String) : Bool :=
  if content == "" || userMessage == "" then false
  else
    let contentLower := trimL (caseFold content.data)
    let userLower := trimL (caseFold userMessage.data)
    if contentLower == userLower then true
    else if decide (10 < userLower.length) && containsL contentLower userLower
        && decide (8 * contentLower.length < 10 * userLower.length) then true
    else false

/-- Embeds `ChatService.isJsonContent(content)`: non-strings and falsy
values are rejected, the trimmed string must be brace- or
bracket-delimited, must parse, and the parsed value must be an
object-typed value with a `courses` or `success` property. -/
def isJsonContent (parse : String → Option JValue) (content : JSVal) : Bool :=
  match content with
  | .jother _ => false
  | .jstr s =>
      if s == "" then false
      else
        let t := trimL s.data
        if (t.head? == some '{' && t.getLast? == some '}')
            || (t.head? == some '[' && t.getLast? == some ']') then
          match parse (String.mk t) with
          | none => false
          | some parsed =>
              jsTypeofObject parsed &&
                (parsed.hasProp "courses" || parsed.hasProp "success")
        else false

/-- Payload of a parsed `message_added` frame as the client reads it. -/
structure MessageAddedData where
  message_type : String
  content : JSVal
deriving DecidableEq, Repr

/-- Payload of a parsed `courses_ready` frame; `is_update` is `none` when
the field is absent from the frame. -/
structure CoursesReadyFrame where
  courses : List Course
  total_results : Nat
  query : String
  is_update : Option Bool
deriving DecidableEq, Repr

/-- A successfully parsed `data:` frame of the event stream, as consumed
by the `switch (data.event)` of `ChatService.streamChatMessage`. -/
inductive Frame
  | message_added (d : MessageAddedData)
  | courses_ready (f : CoursesReadyFrame)
  | stream_complete (status : String)
  | stream_error (error : String)
deriving DecidableEq, Repr

/-- A callback invocation observable by the caller of
`ChatService.streamChatMessage`. -/
inductive Action
  | onMessage (d : MessageAddedData)
  | onCoursesReady (courses : List Course) (totalResults : Nat)
      (query : String) (isUpdate : Bool)
  | onComplete (status : String)
  | onError (e : String)
deriving DecidableEq, Repr

/-- The `isUpdate` value the client hands to `onCoursesReady`:
`data.data.is_update || false`. -/
def clientIsUpdate : Option Bool → Bool
  | none => false
  | some b => b || false

/-- JavaScript truthiness of a `JSVal`: a string is truthy iff non-empty;
a non-string value carries its truthiness. -/
def jsTruthy : JSVal → Bool
  | .jstr s => s != ""
  | .jother truthy => truthy

/-- Result of the call `ChatService.isUserMessageEcho(content, message)`
when `content` may be a non-string: `some b` is a normal return of `b`,
`none` a thrown `TypeError`.  A string content runs `isUserMessageEcho`.
A non-string content returns `false` when it is falsy or the sent message
is empty — the guard `if (!content || !userMessage) return false` comes
before any `toLowerCase()` call — and otherwise reaches
`content.toLowerCase()`, which throws. -/
def echoCheck (content : JSVal) (sent : String) : Option Bool :=
  match content with
  | .jstr s => some (isUserMessageEcho s sent)
  | .jother truthy =>
      if !truthy || sent == "" then some false
      else none

/-- Embeds the `switch (data.event)` dispatch of
`ChatService.streamChatMessage` for one parsed frame (all callbacks
provided).  The `message_added` guard is
`content && !isUserMessageEcho(content, message) && !isJsonContent(content)`:
a thrown `TypeError` from the echo check (truthy non-string content with a
non-empty sent message) is caught by the per-line handler and drops the
frame, while a truthy non-string content with an empty sent message passes
both checks and reaches `onMessage`. -/
def dispatchFrame (parse : String → Option JValue) (sent : String) :
    Frame → Option Action
  | .message_added d =>
      if d.message_type != "user" then
        if jsTruthy d.content then
          match echoCheck d.content sent with
          | none => none
          | some echo =>
              if !echo && !isJsonContent parse d.content then
                some (.onMessage d)
              else none
        else none
      else none
  | .courses_ready f =>
      some (.onCoursesReady f.courses f.total_results f.query
        (clientIsUpdate f.is_update))
  | .stream_complete status => some (.onComplete status)
  | .stream_error e => some (.onError e)

/-- Embeds the read loop of `ChatService.streamChatMessage`: every parsed
frame of the stream is dispatched in order, with no break after any
frame (the loop runs until the reader reports done). -/
def processFrames (parse : String → Option JValue) (sent : String)
    (frames : List Frame) : List Action :=
  frames.filterMap (dispatchFrame parse sent)

/-! ## Helper lemmas -/

/-- Appending a message leaves `lastCourseSet` alone, so the classifier
decision is unchanged. -/
theorem classify_appendMessage (sess : Session) (m : Message) (t : String) :
    classify (appendMessage sess m) t = classify sess t := rfl

/-- An agent text event is never terminal. -/
theorem mem_agentTextEvents_not_terminal (us : List String) (e : Event)
    (h : e ∈ us.map fun u => Event.message_added .agent .text u) :
    e.isTerminal = false := by
  rcases List.mem_map.mp h with ⟨u, _, rfl⟩
  rfl

/-- Overwriting a stored session is visible to a subsequent lookup of the
same id, provided the id was present. -/
theorem storeGet_storeSet (store : Store) (sid : Nat) (x : Session)
    (h : (storeGet store sid).isSome) :
    storeGet (storeSet store sid x) sid = some x := by
  induction store with
  | nil => simp [storeGet] at h
  | cons p rest ih =>
      by_cases hp : p.1 = sid
      · simp [storeGet, storeSet, List.find?, hp]
      · have hp' : (p.1 == sid) = false := by simpa using hp
        have h' : (storeGet rest sid).isSome := by
          simpa [storeGet, List.find?, hp'] using h
        simpa [storeGet, storeSet, List.find?, hp'] using ih h'

/-- Appending a message extends the history by that message. -/
theorem appendMessage_messages (s : Session) (m : Message) :
    (appendMessage s m).messages = s.messages ++ [m] := rfl

/-- Overwriting the course set leaves the history alone. -/
theorem replaceCourseSet_messages (s : Session) (cs : List Course) :
    (replaceCourseSet s cs).messages = s.messages := rfl

/-- Folding agent utterances into the session appends the corresponding
agent text messages in order. -/
theorem foldl_appendMessage_messages (us : List String) (s : Session) :
    (us.foldl (fun acc u => appendMessage acc ⟨.agent, .text u⟩) s).messages
      = s.messages ++ (us.map fun u => Message.mk .agent (.text u)) := by
  induction us generalizing s with
  | nil => simp
  | cons u rest ih =>
      rw [List.foldl_cons, ih, appendMessage_messages]
      simp [List.append_assoc]

/-- One round appends exactly `roundMessages` to the session history. -/
theorem runRound_messages (sess : Session) (t : String) (out : AgentOutcome) :
    (runRound sess t out).1.messages = sess.messages ++ roundMessages t out := by
  cases out with
  | failure e => simp [runRound, roundMessages, appendMessage_messages]
  | success r =>
      cases hcs : r.courseSet with
      | none =>
          simp [runRound, roundMessages, hcs,
            foldl_appendMessage_messages, appendMessage_messages]
      | some c =>
          simp [runRound, roundMessages, hcs, appendMessage_messages,
            replaceCourseSet_messages, foldl_appendMessage_messages,
            List.append_assoc]

/-- The messages of one round start with the round's user message and
continue with agent-role messages only. -/
theorem roundMessages_user_first (t : String) (out : AgentOutcome) :
    ∃ ams, roundMessages t out = ⟨.user, .text t⟩ :: ams
      ∧ ∀ m ∈ ams, m.role = .agent := by
  cases out with
  | failure e => exact ⟨[], rfl, by simp⟩
  | success r =>
      refine ⟨_, rfl, ?_⟩
      intro m hm
      rcases List.mem_append.mp hm with h | h
      · rcases List.mem_map.mp h with ⟨u, _, rfl⟩
        rfl
      · cases hcs : r.courseSet with
        | none => simp [hcs] at h
        | some c =>
            simp only [hcs, List.mem_singleton] at h
            subst h
            rfl

/-! ## Claims -/

/-- C1: the Modification Classifier returns `isModification = true` iff
the session's `lastCourseSet` is non-empty and the case-folded user text
contains at least one keyword of the fixed set as a substring; otherwise
it returns `false`. -/
theorem classifier_isModification_iff (s : Session) (t : String) :
    (classify s t).isModification = true ↔
      s.lastCourseSet ≠ [] ∧
        ∃ kw ∈ modificationKeywords, ∃ pre post,
          caseFold t.data = pre ++ kw.data ++ post := by
  have hmatch : (modificationKeywords.any fun kw =>
      containsL (caseFold t.data) kw.data) = true ↔
      ∃ kw ∈ modificationKeywords, ∃ pre post,
        caseFold t.data = pre ++ kw.data ++ post := by
    rw [List.any_eq_true]
    exact exists_congr fun kw => and_congr_right fun _ => containsL_iff _ _
  cases hcs : s.lastCourseSet with
  | nil => simp [classify, hcs]
  | cons c cs =>
      rw [← hmatch]
      cases hk : modificationKeywords.any fun kw =>
          containsL (caseFold t.data) kw.data <;>
        simp [classify, hcs, hk]

/-- C4: the Modification Classifier is deterministic: two calls with the
same session state and the same text return the same
ModificationDecision. -/
theorem classify_deterministic (s₁ s₂ : Session) (t₁ t₂ : String)
    (hs : s₁ = s₂) (ht : t₁ = t₂) :
    classify s₁ t₁ = classify s₂ t₂ := by
  subst hs; subst ht; rfl

/-- Witness for C4 at a concrete session and text. -/
theorem classify_deterministic_witness :
    classify ⟨[], [⟨0⟩]⟩ "actually" = classify ⟨[], [⟨0⟩]⟩ "actually" :=
  classify_deterministic ⟨[], [⟨0⟩]⟩ ⟨[], [⟨0⟩]⟩ "actually" "actually" rfl rfl

/-- C2: when a round emits a `courses_ready` event, its `isUpdate` field
equals the `isModification` decision the classifier computes for that
round's user message; and the client passes exactly that `is_update` value
(a present boolean field) to the `onCoursesReady` callback. -/
theorem courses_ready_isUpdate_matches (sess : Session) (text : String)
    (outcome : AgentOutcome) (d : CoursesReadyData)
    (h : Event.courses_ready d ∈ (runRound sess text outcome).2) :
    d.isUpdate = (classify sess text).isModification ∧
      clientIsUpdate (some d.isUpdate) = d.isUpdate := by
  cases outcome with
  | failure e => simp [runRound] at h
  | success r =>
      cases hcs : r.courseSet with
      | none => simp [runRound, hcs] at h
      | some c =>
          simp only [runRound, hcs] at h
          rcases List.mem_cons.mp h with h2 | h2
          · exact absurd h2 (by simp)
          rcases List.mem_append.mp h2 with h3 | h3
          · rcases List.mem_map.mp h3 with ⟨u, _, h4⟩
            exact absurd h4 (by simp)
          rcases List.mem_cons.mp h3 with h4 | h4
          · have hd : d = ⟨c.courses, c.totalResults, c.query,
                (classify (appendMessage sess ⟨.user, .text text⟩)
                  text).isModification⟩ := by
              injection h4 with h5
            subst hd
            rw [classify_appendMessage]
            exact ⟨rfl, Bool.or_false _⟩
          · rcases List.mem_singleton.mp h4 with h5
            exact absurd h5 (by simp)

/-- Witness for C2: a concrete round whose `courses_ready` event carries
`isUpdate = false`, matching the classifier on a session without prior
courses. -/
theorem courses_ready_isUpdate_matches_witness :
    (⟨[⟨7⟩], 1, "python", false⟩ : CoursesReadyData).isUpdate
        = (classify ⟨[], []⟩ "I want to learn Python").isModification ∧
      clientIsUpdate (some false) = false :=
  courses_ready_isUpdate_matches ⟨[], []⟩ "I want to learn Python"
    (.success ⟨["Here are some courses"], some ⟨[⟨7⟩], 1, "python"⟩⟩)
    ⟨[⟨7⟩], 1, "python", false⟩ (by decide)

/-- C3: every round's event sequence is the user echo first, then the
agent text events in the order produced, then at most one `courses_ready`,
then exactly one terminal event (`stream_complete` xor `stream_error`)
which is last; no event follows the terminal event. -/
theorem round_event_protocol (sess : Session) (text : String)
    (outcome : AgentOutcome) :
    ∃ crPart term,
      (runRound sess text outcome).2
        = Event.message_added .user .text text
            :: ((agentUtterances outcome).map fun u =>
                  Event.message_added .agent .text u)
            ++ crPart ++ [term]
      ∧ (crPart = [] ∨ ∃ d, crPart = [Event.courses_ready d])
      ∧ (term = .stream_complete ∨ ∃ msg, term = .stream_error msg)
      ∧ ∀ e ∈ Event.message_added .user .text text
            :: ((agentUtterances outcome).map fun u =>
                  Event.message_added .agent .text u)
            ++ crPart, e.isTerminal = false := by
  cases outcome with
  | failure e =>
      refine ⟨[], .stream_error (AgentError.message e), ?_, Or.inl rfl,
        Or.inr ⟨_, rfl⟩, ?_⟩
      · simp [runRound, agentUtterances]
      · intro ev hev
        simp only [agentUtterances, List.map_nil, List.append_nil,
          List.mem_cons, List.not_mem_nil, or_false] at hev
        subst hev
        rfl
  | success r =>
      cases hcs : r.courseSet with
      | none =>
          refine ⟨[], .stream_complete, ?_, Or.inl rfl, Or.inl rfl, ?_⟩
          · simp [runRound, hcs, agentUtterances]
          · intro ev hev
            simp only [agentUtterances, List.append_nil, List.mem_cons] at hev
            rcases hev with rfl | hev
            · rfl
            · exact mem_agentTextEvents_not_terminal r.utterances ev hev
      | some c =>
          refine ⟨[.courses_ready ⟨c.courses, c.totalResults, c.query,
              (classify (appendMessage sess ⟨.user, .text text⟩)
                text).isModification⟩],
            .stream_complete, ?_, Or.inr ⟨_, rfl⟩, Or.inl rfl, ?_⟩
          · simp [runRound, hcs, agentUtterances]
          · intro ev hev
            rcases List.mem_cons.mp hev with rfl | hev
            · rfl
            rcases List.mem_append.mp hev with hev | hev
            · exact mem_agentTextEvents_not_terminal r.utterances ev
                (by simpa [agentUtterances] using hev)
            · rcases List.mem_singleton.mp hev with rfl
              rfl

/-- C5: a round in which the Agent Invoker fails emits only the user echo
followed by `stream_error`; the session survives in the store with the
triggering user message appended to its history and `lastCourseSet`
unchanged. -/
theorem agent_failure_round (store : Store) (sid : Nat) (text : String)
    (e : AgentError) (sess : Session) (h : storeGet store sid = some sess) :
    streamMessage store sid text (.failure e)
        = .ok (storeSet store sid (appendMessage sess ⟨.user, .text text⟩),
            [.message_added .user .text text,
             .stream_error (AgentError.message e)])
      ∧ storeGet (storeSet store sid
            (appendMessage sess ⟨.user, .text text⟩)) sid
          = some (appendMessage sess ⟨.user, .text text⟩)
      ∧ (appendMessage sess ⟨.user, .text text⟩).messages
          = sess.messages ++ [⟨.user, .text text⟩]
      ∧ (appendMessage sess ⟨.user, .text text⟩).lastCourseSet
          = sess.lastCourseSet := by
  refine ⟨?_, ?_, rfl, rfl⟩
  · simp [streamMessage, h, runRound]
  · exact storeGet_storeSet store sid _ (by simp [h])

/-- Witness for C5 at a concrete store, session and failure. -/
theorem agent_failure_round_witness :
    streamMessage [(0, ⟨[], [⟨3⟩]⟩)] 0 "hello" (.failure .agentTimeout)
        = .ok (storeSet [(0, ⟨[], [⟨3⟩]⟩)] 0
            (appendMessage ⟨[], [⟨3⟩]⟩ ⟨.user, .text "hello"⟩),
            [.message_added .user .text "hello",
             .stream_error (AgentError.message .agentTimeout)])
      ∧ storeGet (storeSet [(0, ⟨[], [⟨3⟩]⟩)] 0
            (appendMessage ⟨[], [⟨3⟩]⟩ ⟨.user, .text "hello"⟩)) 0
          = some (appendMessage ⟨[], [⟨3⟩]⟩ ⟨.user, .text "hello"⟩)
      ∧ (appendMessage (⟨[], [⟨3⟩]⟩ : Session)
            ⟨.user, .text "hello"⟩).messages
          = ([] : List Message) ++ [⟨.user, .text "hello"⟩]
      ∧ (appendMessage (⟨[], [⟨3⟩]⟩ : Session)
            ⟨.user, .text "hello"⟩).lastCourseSet = [⟨3⟩] :=
  agent_failure_round [(0, ⟨[], [⟨3⟩]⟩)] 0 "hello" .agentTimeout
    ⟨[], [⟨3⟩]⟩ (by decide)

/-- C6: a `StreamMessage` call with a session id unknown to the Session
Store fails with the request-level `SessionNotFound` error: the result
carries no stream events and no updated store, so nothing is emitted and
no session is mutated. -/
theorem unknown_session_request_error (store : Store) (sid : Nat)
    (text : String) (outcome : AgentOutcome)
    (h : storeGet store sid = none) :
    streamMessage store sid text outcome = .error .sessionNotFound := by
  simp [streamMessage, h]

/-- Witness for C6 on the empty store. -/
theorem unknown_session_request_error_witness :
    streamMessage [] 5 "hello" (.failure .agentTimeout)
      = .error .sessionNotFound :=
  unknown_session_request_error [] 5 "hello" (.failure .agentTimeout)
    (by decide)

/-- C7: session history is append-only: after any sequence of rounds,
`GetHistory` returns the messages present before followed by exactly the
messages appended by those rounds, in round order, each round's user
message first with only agent messages after it. -/
theorem history_append_only (store : Store) (sid : Nat)
    (rounds : List (String × AgentOutcome)) (sess : Session)
    (h : storeGet store sid = some sess) :
    (∃ store2, runRounds store sid rounds = .ok store2
      ∧ getHistory store2 sid
          = .ok (sess.messages ++
              rounds.flatMap fun r => roundMessages r.1 r.2))
      ∧ ∀ t out, ∃ ams, roundMessages t out = ⟨.user, .text t⟩ :: ams
          ∧ ∀ m ∈ ams, m.role = .agent := by
  refine ⟨?_, fun t out => roundMessages_user_first t out⟩
  induction rounds generalizing store sess with
  | nil => exact ⟨store, rfl, by simp [getHistory, h]⟩
  | cons round rest ih =>
      obtain ⟨t, out⟩ := round
      have hget : storeGet (storeSet store sid (runRound sess t out).1) sid
          = some (runRound sess t out).1 :=
        storeGet_storeSet store sid _ (by simp [h])
      obtain ⟨store2, hrun, hhist⟩ := ih _ _ hget
      refine ⟨store2, ?_, ?_⟩
      · simpa [runRounds, streamMessage, h] using hrun
      · rw [hhist, runRound_messages]
        simp [List.append_assoc]

/-- Witness for C7: two concrete rounds, one successful with a course
set and one failed, against a concrete store. -/
theorem history_append_only_witness :
    (∃ store2,
        runRounds [(2, ⟨[], []⟩)] 2
            [("learn python", .success ⟨["ok"], some ⟨[⟨1⟩], 1, "python"⟩⟩),
             ("more advanced", .failure .toolFailure)] = .ok store2
      ∧ getHistory store2 2
          = .ok (([] : List Message) ++
              [("learn python",
                  AgentOutcome.success ⟨["ok"], some ⟨[⟨1⟩], 1, "python"⟩⟩),
               ("more advanced", AgentOutcome.failure .toolFailure)].flatMap
                fun r => roundMessages r.1 r.2))
      ∧ ∀ t out, ∃ ams, roundMessages t out = ⟨.user, .text t⟩ :: ams
          ∧ ∀ m ∈ ams, m.role = .agent :=
  history_append_only [(2, ⟨[], []⟩)] 2
    [("learn python", .success ⟨["ok"], some ⟨[⟨1⟩], 1, "python"⟩⟩),
     ("more advanced", .failure .toolFailure)] ⟨[], []⟩ (by decide)

/-- C8: the client invokes `onMessage` for a parsed `message_added` frame
exactly when the frame's `message_type` is not `user`, its content is
truthy (for a string: non-empty), the `isUserMessageEcho` call returns
`false` — for a truthy non-string content that happens exactly when the
sent message is empty, the one case in which the guard returns before
`toLowerCase()` can throw — and `isJsonContent` returns `false`; in
particular a frame with `message_type = "user"` (the echo the protocol
emits first) is never delivered. -/
theorem onMessage_filter (parse : String → Option JValue) (sent : String)
    (d : MessageAddedData) :
    (dispatchFrame parse sent (.message_added d) = some (.onMessage d) ↔
      d.message_type ≠ "user" ∧ jsTruthy d.content = true
        ∧ echoCheck d.content sent = some false
        ∧ isJsonContent parse d.content = false)
    ∧ ∀ c : JSVal,
        dispatchFrame parse sent (.message_added ⟨"user", c⟩) = none := by
  refine ⟨?_, fun c => by simp [dispatchFrame]⟩
  by_cases hmt : d.message_type = "user"
  · simp [dispatchFrame, hmt]
  · cases htr : jsTruthy d.content
    · simp [dispatchFrame, hmt, htr]
    · cases hec : echoCheck d.content sent with
      | none => simp [dispatchFrame, hmt, htr, hec]
      | some echo =>
          cases echo
          · cases hj : isJsonContent parse d.content
            · simp [dispatchFrame, hmt, htr, hec, hj]
            · simp [dispatchFrame, hmt, htr, hec, hj]
          · simp [dispatchFrame, hmt, htr, hec]

/-- C9: `isJsonContent` returns true iff its argument is a string whose
trimmed form is brace- or bracket-delimited, parses as JSON, and the
parsed value is an object with a `courses` or `success` property; every
other input yields false. -/
theorem isJsonContent_iff (parse : String → Option JValue)
    (content : JSVal) :
    isJsonContent parse content = true ↔
      ∃ s, content = .jstr s ∧
        ((trimL s.data).head? = some '{' ∧ (trimL s.data).getLast? = some '}'
          ∨ (trimL s.data).head? = some '['
              ∧ (trimL s.data).getLast? = some ']')
        ∧ ∃ fields, parse (String.mk (trimL s.data)) = some (.obj fields)
          ∧ ((fields.any fun f => f.1 == "courses") = true
            ∨ (fields.any fun f => f.1 == "success") = true) := by
  cases content with
  | jother b => simp [isJsonContent]
  | jstr s =>
      simp only [JSVal.jstr.injEq, exists_eq_left']
      by_cases hs : s = ""
      · subst hs
        simp [isJsonContent, trimL, List.dropWhile]
      · rw [show isJsonContent parse (.jstr s)
            = (if ((trimL s.data).head? == some '{'
                    && (trimL s.data).getLast? == some '}')
                  || ((trimL s.data).head? == some '['
                    && (trimL s.data).getLast? == some ']') then
                match parse (String.mk (trimL s.data)) with
                | none => false
                | some parsed =>
                    jsTypeofObject parsed &&
                      (parsed.hasProp "courses" || parsed.hasProp "success")
              else false) from by simp [isJsonContent, hs]]
        by_cases hbr : ((trimL s.data).head? == some '{'
              && (trimL s.data).getLast? == some '}')
            || ((trimL s.data).head? == some '['
              && (trimL s.data).getLast? == some ']')
        · rw [if_pos hbr]
          have hbr2 : (trimL s.data).head? = some '{'
                ∧ (trimL s.data).getLast? = some '}'
              ∨ (trimL s.data).head? = some '['
                ∧ (trimL s.data).getLast? = some ']' := by
            simpa using hbr
          cases hp : parse (String.mk (trimL s.data)) with
          | none => simp [hbr2]
          | some v =>
              cases v with
              | obj fields => simp [hbr2, jsTypeofObject, JValue.hasProp]
              | null => simp [jsTypeofObject, JValue.hasProp]
              | boolean b2 => simp [jsTypeofObject, JValue.hasProp]
              | number n => simp [jsTypeofObject, JValue.hasProp]
              | str s2 => simp [jsTypeofObject, JValue.hasProp]
              | arr elems => simp [jsTypeofObject, JValue.hasProp]
        · rw [if_neg hbr]
          have hbr2 : ¬((trimL s.data).head? = some '{'
                ∧ (trimL s.data).getLast? = some '}'
              ∨ (trimL s.data).head? = some '['
                ∧ (trimL s.data).getLast? = some ']') := by
            simpa using hbr
          simp [hbr2]

/-- C10: the read loop of `ChatService.streamChatMessage` does not stop
at a terminal event: in a stream where a `message_added` frame and a
`courses_ready` frame follow `stream_complete`, the later frames still
reach their callbacks. -/
theorem loop_continues_after_terminal :
    processFrames (fun _ => none) "hi"
        [.stream_complete "success",
         .message_added ⟨"agent", .jstr "hello there"⟩,
         .courses_ready ⟨[⟨1⟩], 1, "python", some true⟩]
      = [.onComplete "success",
         .onMessage ⟨"agent", .jstr "hello there"⟩,
         .onCoursesReady [⟨1⟩] 1 "python" true] := by
  decide

end GraceChat
